import Mathlib

/-!
Shallow embedding of parts of libdcp (src/certificate_chain.cc, src/cpl.cc,
src/dcp.cc, src/reel_asset.cc, src/util.cc, src/verify.cc) together with
theorems settling the frozen claims about it.

External collaborators (OpenSSL certificate verification, the C++ standard
library's next_permutation, libxml++ trees) are modelled by parameters or by
their documented behaviour; everything else is translated from the source.
-/

namespace LibDCP

/-- The two DCP dialects (`dcp::Standard`). -/
inductive Standard where
  | INTEROP
  | SMPTE
deriving DecidableEq, Repr

/-! ## ReelAsset (src/reel_asset.cc) -/

/-- Model of `dcp::ReelAsset`: the fields used by `actual_duration`
(`_intrinsic_duration`, `_duration`, `_entry_point`); the int64_t values are
modelled as `Int` (no arithmetic here comes near overflow). -/
structure ReelAsset where
  intrinsic_duration : Int
  duration : Option Int
  entry_point : Option Int
deriving DecidableEq, Repr

/-- `ReelAsset::actual_duration` (src/reel_asset.cc lines 188-196): the set
duration if there is one, else intrinsic duration minus the entry point
(0 when absent). -/
def ReelAsset.actual_duration (a : ReelAsset) : Int :=
  match a.duration with
  | some d => d
  | none => a.intrinsic_duration - (a.entry_point.getD 0)

/-! ## ContentKind (src/util.cc lines 128-195) -/

/-- `dcp::ContentKind`. -/
inductive ContentKind where
  | FEATURE
  | SHORT
  | TRAILER
  | TEST
  | TRANSITIONAL
  | RATING
  | TEASER
  | POLICY
  | PUBLIC_SERVICE_ANNOUNCEMENT
  | ADVERTISEMENT
deriving DecidableEq, Repr

/-- `dcp::content_kind_to_string` (src/util.cc lines 133-160). -/
def content_kind_to_string (kind : ContentKind) : String :=
  match kind with
  | .FEATURE => "feature"
  | .SHORT => "short"
  | .TRAILER => "trailer"
  | .TEST => "test"
  | .TRANSITIONAL => "transitional"
  | .RATING => "rating"
  | .TEASER => "teaser"
  | .POLICY => "policy"
  | .PUBLIC_SERVICE_ANNOUNCEMENT => "psa"
  | .ADVERTISEMENT => "advertisement"

/-- ASCII lower-casing of one character, modelling `::tolower` in the "C"
locale as applied by `content_kind_from_string`. -/
def asciiLower (c : Char) : Char :=
  if 'A' ≤ c ∧ c ≤ 'Z' then Char.ofNat (c.toNat + 32) else c

/-- Lower-case a whole string, modelling the
`transform (kind.begin(), kind.end(), kind.begin(), ::tolower)` call. -/
def lowerString (s : String) : String :=
  String.mk (s.data.map asciiLower)

/-- The comparison ladder of `content_kind_from_string` after lower-casing
(src/util.cc lines 172-192); the fall-through `DCP_ASSERT (false)` is
modelled as `none`. -/
def content_kind_from_lowered (kind : String) : Option ContentKind :=
  if kind = "feature" then some .FEATURE
  else if kind = "short" then some .SHORT
  else if kind = "trailer" then some .TRAILER
  else if kind = "test" then some .TEST
  else if kind = "transitional" then some .TRANSITIONAL
  else if kind = "rating" then some .RATING
  else if kind = "teaser" then some .TEASER
  else if kind = "policy" then some .POLICY
  else if kind = "psa" then some .PUBLIC_SERVICE_ANNOUNCEMENT
  else if kind = "advertisement" then some .ADVERTISEMENT
  else none

/-- `dcp::content_kind_from_string` (src/util.cc lines 167-195): lower-case
the argument, then compare against the fixed vocabulary. -/
def content_kind_from_string (kind : String) : Option ContentKind :=
  content_kind_from_lowered (lowerString kind)

/-! ## DCP::read handling of a CPL with a mismatched standard
(src/dcp.cc lines 235-240) -/

/-- Verification note codes used by the modelled fragments of the library
(`dcp::VerificationNote::Code`, src/verify.h). -/
inductive NoteCode where
  | MISMATCHED_STANDARD
  | INVALID_SUBTITLE_DURATION
  | INVALID_SUBTITLE_SPACING
  | INVALID_SUBTITLE_FIRST_TEXT_TIME
  | INVALID_SUBTITLE_LINE_COUNT
  | INVALID_SUBTITLE_LINE_LENGTH
  | NEARLY_INVALID_SUBTITLE_LINE_LENGTH
  | INVALID_PICTURE_FRAME_SIZE_IN_BYTES
  | NEARLY_INVALID_PICTURE_FRAME_SIZE_IN_BYTES
deriving DecidableEq, Repr

/-- Model of a parsed CPL as far as `DCP::read` cares when appending it:
its namespace-derived standard. -/
structure ReadCpl where
  standard : Standard
deriving DecidableEq, Repr

/-- The `root == "CompositionPlaylist"` branch of `DCP::read`
(src/dcp.cc lines 235-240): given the ASSETMAP-derived standard, the
freshly parsed CPL, whether a notes sink was supplied, and the current
notes and CPL lists, return the updated lists.  The branch never throws,
which the `Except` result type records (`.ok` always). -/
def readCplBranch (dcpStandard : Standard) (cpl : ReadCpl) (hasNotes : Bool)
    (notes : List NoteCode) (cpls : List ReadCpl) :
    Except String (List NoteCode × List ReadCpl) :=
  let notes' :=
    if cpl.standard ≠ dcpStandard ∧ hasNotes then
      notes ++ [NoteCode.MISMATCHED_STANDARD]
    else
      notes
  .ok (notes', cpls ++ [cpl])

/-! ## Certificates and CertificateChain (src/certificate_chain.cc) -/

/-- The part of `dcp::Certificate` that `chain_valid` inspects: the subject
and issuer distinguished names.  Cryptographic content is handled by the
OpenSSL collaborator, modelled below as a verification oracle. -/
structure Certificate where
  subject : String
  issuer : String
deriving DecidableEq, Repr

/-- A verification oracle standing for OpenSSL's `X509_verify_cert`: given a
certificate and the store (the list of certificates added to the
`X509_STORE`), report whether verification succeeds. -/
abbrev VerifyOracle := Certificate → List Certificate → Bool

/-- The pair-checking loop of `CertificateChain::chain_valid`
(src/certificate_chain.cc lines 438-476): walking the chain, each
certificate `j` following `i` must verify against the store, its issuer must
equal `i`'s subject, and its subject must differ from `i`'s subject. -/
def chain_valid_from (verify : VerifyOracle) (store : List Certificate) :
    List Certificate → Bool
  | [] => true
  | [_] => true
  | i :: j :: rest =>
    if verify j store ∧ j.issuer = i.subject ∧ j.subject ≠ i.subject then
      chain_valid_from verify store (j :: rest)
    else
      false

/-- `CertificateChain::chain_valid (List const&)` (src/certificate_chain.cc
lines 414-481): all certificates of the candidate chain are put into the
store, then successive pairs are checked. -/
def chain_valid (verify : VerifyOracle) (chain : List Certificate) : Bool :=
  chain_valid_from verify chain chain

/-- `CertificateChain::root_to_leaf` (src/certificate_chain.cc lines
549-561).  The source sorts the stored list and then runs a
`do { if (chain_valid …) return; } while (std::next_permutation …)` loop;
by the C++ standard library's specification of `std::next_permutation`,
starting from the sorted sequence this tests every permutation of the
multiset exactly once.  The model therefore searches all permutations;
`none` models the `CertificateChainError` throw (`NotAChain`). -/
def root_to_leaf (verify : VerifyOracle) (certs : List Certificate) :
    Option (List Certificate) :=
  certs.permutations.find? (fun l => chain_valid verify l)

/-! ## CertificateChain::sign (src/certificate_chain.cc lines 567-615) -/

/-- A bare-bones XML tree: elements with attributes and children, plus text
nodes.  Namespace prefixes (`dsig:`) are not modelled; nor is the
re-indentation performed by `indent`, which only moves whitespace. -/
inductive Xml where
  | el (name : String) (attrs : List (String × String)) (children : List Xml)
  | txt (s : String)

/-- Name of a node (text nodes have none). -/
def Xml.name : Xml → String
  | .el n _ _ => n
  | .txt _ => ""

/-- Children of a node. -/
def Xml.children : Xml → List Xml
  | .el _ _ cs => cs
  | .txt _ => []

/-- Attribute lookup on an element. -/
def Xml.attr (x : Xml) (key : String) : Option String :=
  match x with
  | .el _ attrs _ => (attrs.find? (fun p => p.1 = key)).map (fun p => p.2)
  | .txt _ => none

/-- First child element with the given name (models
`cxml::Node::node_child` / the path taken when reading the emitted tree). -/
def Xml.childNamed (x : Xml) (n : String) : Option Xml :=
  x.children.find? (fun c => c.name = n)

/-- Identity data of a certificate as embedded by `sign` /
`add_signature_value`. -/
structure CertificateIdentity where
  issuer : String
  serial : String
  subject : String
  certificate : String
deriving DecidableEq, Repr

/-- The `<X509Data>` node added per certificate by
`CertificateChain::add_signature_value` (src/certificate_chain.cc lines
630-640). -/
def x509DataElement (c : CertificateIdentity) : Xml :=
  .el "X509Data" []
    [ .el "X509IssuerSerial" []
        [ .el "X509IssuerName" [] [.txt c.issuer]
        , .el "X509SerialNumber" [] [.txt c.serial] ]
    , .el "X509Certificate" [] [.txt c.certificate] ]

/-- The `<Signer>` node built by `CertificateChain::sign`
(src/certificate_chain.cc lines 570-579). -/
def signerElement (leaf : CertificateIdentity) : Xml :=
  .el "Signer" []
    [ .el "X509Data" []
        [ .el "X509IssuerSerial" []
            [ .el "X509IssuerName" [] [.txt leaf.issuer]
            , .el "X509SerialNumber" [] [.txt leaf.serial] ]
        , .el "X509SubjectName" [] [.txt leaf.subject] ] ]

/-- The `<Signature>` node built by `CertificateChain::sign`
(src/certificate_chain.cc lines 583-614): SignedInfo with canonicalization,
a standard-dependent SignatureMethod, an enveloped-signature Transform, a
DigestMethod, and placeholder DigestValue / SignatureValue elements (filled
in by the external xmlsec signing step, which does not change the Algorithm
attributes); KeyInfo is populated by `add_signature_value` with one
X509Data per certificate from leaf to root. -/
def signatureElement (standard : Standard)
    (leafToRoot : List CertificateIdentity) : Xml :=
  .el "Signature" []
    [ .el "SignedInfo" []
        [ .el "CanonicalizationMethod"
            [("Algorithm", "http://www.w3.org/TR/2001/REC-xml-c14n-20010315")] []
        , .el "SignatureMethod"
            [("Algorithm",
              if standard = Standard.INTEROP then
                "http://www.w3.org/2000/09/xmldsig#rsa-sha1"
              else
                "http://www.w3.org/2001/04/xmldsig-more#rsa-sha256")] []
        , .el "Reference" [("URI", "")]
            [ .el "Transforms" []
                [ .el "Transform"
                    [("Algorithm",
                      "http://www.w3.org/2000/09/xmldsig#enveloped-signature")] [] ]
            , .el "DigestMethod"
                [("Algorithm", "http://www.w3.org/2000/09/xmldsig#sha1")] []
            , .el "DigestValue" [] [] ] ]
    , .el "SignatureValue" [] []
    , .el "KeyInfo" [] (leafToRoot.map x509DataElement) ]

/-- `CertificateChain::sign (parent, standard)` (src/certificate_chain.cc
lines 567-615): append the Signer and Signature nodes (with the interleaved
indentation text nodes) to the signed node. -/
def CertificateChain.sign (parent : Xml) (standard : Standard)
    (leaf : CertificateIdentity) (leafToRoot : List CertificateIdentity) : Xml :=
  match parent with
  | .el n a cs =>
    .el n a
      (cs ++
        [ .txt "  "
        , signerElement leaf
        , .txt "\n  "
        , signatureElement standard leafToRoot
        , .txt "\n" ])
  | .txt s => .txt s

/-- Algorithm attribute of the DigestMethod of the Signature emitted under
the signed node, following the fixed XML-DSig path. -/
def signedDigestMethodAlgorithm (signedRoot : Xml) : Option String :=
  (signedRoot.childNamed "Signature").bind fun sig =>
    (sig.childNamed "SignedInfo").bind fun si =>
      (si.childNamed "Reference").bind fun r =>
        (r.childNamed "DigestMethod").bind fun dm =>
          dm.attr "Algorithm"

/-- Algorithm attribute of the SignatureMethod of the Signature emitted
under the signed node. -/
def signedSignatureMethodAlgorithm (signedRoot : Xml) : Option String :=
  (signedRoot.childNamed "Signature").bind fun sig =>
    (sig.childNamed "SignedInfo").bind fun si =>
      (si.childNamed "SignatureMethod").bind fun sm =>
        sm.attr "Algorithm"

/-! ## CPL::write_xml and CompositionMetadataAsset (src/cpl.cc) -/

/-- A reel as `CPL::write_xml` sees it: whether `main_picture()` is set, and
the asset nodes its `write_to_cpl` puts into its AssetList.  Modelled from
the spec: `Reel::write_to_cpl` (reel.cc is not under src/) emits
`<Reel><Id/><AssetList>…</AssetList></Reel>` and hands back the AssetList
node, into which `CPL::write_xml` may insert the CompositionMetadataAsset. -/
structure ReelModel where
  mainPicture : Bool
  assetChildren : List Xml

/-- The CPL fields consulted by `maybe_write_composition_metadata_asset`
(src/cpl.cc lines 297-310): the four optional metadata fields and the reel
list. -/
structure CplModel where
  mainSoundConfiguration : Option String
  mainSoundSampleRate : Option Int
  mainPictureStoredArea : Option (Int × Int)
  mainPictureActiveArea : Option (Int × Int)
  reels : List ReelModel

/-- `CPL::maybe_write_composition_metadata_asset` (src/cpl.cc lines
297-396): do nothing unless the main sound configuration, main sound sample
rate, main picture stored area and main picture active area are all set,
the reel list is non-empty and the first reel has a main picture; otherwise
append a `meta:CompositionMetadataAsset` element (namespace prefix and the
element's children elided: the claims concern only its presence). -/
def maybe_write_composition_metadata_asset (cpl : CplModel) (assetList : Xml) :
    Xml :=
  if cpl.mainSoundConfiguration.isNone ∨
      cpl.mainSoundSampleRate.isNone ∨
      cpl.mainPictureStoredArea.isNone ∨
      cpl.mainPictureActiveArea.isNone ∨
      cpl.reels.isEmpty ∨
      !((cpl.reels.headD (ReelModel.mk false [])).mainPicture) then
    assetList
  else
    match assetList with
    | .el n a cs => .el n a (cs ++ [.el "CompositionMetadataAsset" [] []])
    | .txt s => .txt s

/-- One written reel, with the first reel (under SMPTE) receiving the
CompositionMetadataAsset treatment; mirrors the `first` flag of
`CPL::write_xml` (src/cpl.cc lines 194-201). -/
def writtenReel (standard : Standard) (cpl : CplModel) (first : Bool)
    (r : ReelModel) : Xml :=
  let al := Xml.el "AssetList" [] r.assetChildren
  let al :=
    if first ∧ standard = Standard.SMPTE then
      maybe_write_composition_metadata_asset cpl al
    else
      al
  .el "Reel" [] [.el "Id" [] [], al]

/-- The ReelList children written by `CPL::write_xml`. -/
def writtenReelList (standard : Standard) (cpl : CplModel) : List Xml :=
  match cpl.reels with
  | [] => []
  | r :: rest =>
    writtenReel standard cpl true r ::
      rest.map (writtenReel standard cpl false)

/-- `CPL::write_xml` (src/cpl.cc lines 166-212): the emitted document root.
The header children (Id, AnnotationText, IssueDate, Issuer, Creator,
ContentTitleText, ContentKind, ContentVersion, RatingList) are kept as
empty elements since their text content is not at issue; signing and
pretty-indentation are applied after this tree is built and do not move
elements. -/
def CPL.write_xml (cpl : CplModel) (standard : Standard) : Xml :=
  .el "CompositionPlaylist" []
    [ .el "Id" [] []
    , .el "AnnotationText" [] []
    , .el "IssueDate" [] []
    , .el "Issuer" [] []
    , .el "Creator" [] []
    , .el "ContentTitleText" [] []
    , .el "ContentKind" [] []
    , .el "ContentVersion" [] []
    , .el "RatingList" [] []
    , .el "ReelList" [] (writtenReelList standard cpl) ]

/-- Whether the emitted document has a CompositionMetadataAsset inside the
first reel's AssetList. -/
def firstReelHasCma (doc : Xml) : Bool :=
  match ((doc.childNamed "ReelList").bind fun rl => rl.children.head?).bind
      (fun reel => reel.childNamed "AssetList") with
  | some al => al.children.any fun c => c.name = "CompositionMetadataAsset"
  | none => false

/-! ## check_text_timing (src/verify.cc lines 752-831)

dcp_time.cc is not under src/, so times are modelled from the spec: a
subtitle's TimeIn/TimeOut and the 4-second threshold are expressed directly
in editable units at the picture frame rate (the code converts `Time`
values with `as_editable_units(pfr)` before every comparison). -/

/-- One `<Subtitle>` node's times, in editable units at the picture frame
rate. -/
structure TimedSub where
  tin : Int
  tout : Int

/-- The flags and running state threaded through the `parse` lambda of
`check_text_timing`. -/
structure TimingState where
  last_out : Option Int
  too_early : Bool
  too_short : Bool
  too_close : Bool

/-- Handling of one `<Subtitle>` node (src/verify.cc lines 773-790):
flag a first-reel subtitle starting before 4 seconds, a subtitle shorter
than 15 editable units, and a gap of 0 or 1 editable units to the previous
subtitle's end; then record this subtitle's end. -/
def timingStep (pfr reel_offset : Int) (first_reel : Bool)
    (st : TimingState) (s : TimedSub) : TimingState :=
  { last_out := some (reel_offset + s.tout)
  , too_early := st.too_early || (first_reel && decide (s.tin < 4 * pfr))
  , too_short := st.too_short || decide (s.tout - s.tin < 15)
  , too_close := st.too_close ||
      (match st.last_out with
       | some lo =>
         decide (0 ≤ reel_offset + s.tin - lo ∧ reel_offset + s.tin - lo < 2)
       | none => false) }

/-- The reel loop of `check_text_timing` (src/verify.cc lines 798-812):
reels are the ones passing the `check` filter, given as (subtitles in
document order, reel duration); the reel offset advances by each processed
reel's duration and only the first processed reel counts as first. -/
def timingReels (pfr : Int) :
    List (List TimedSub × Int) → Int → Bool → TimingState → TimingState
  | [], _, _, st => st
  | (subs, dur) :: rest, off, first, st =>
    timingReels pfr rest (off + dur) false
      (subs.foldl (timingStep pfr off first) st)

/-- `check_text_timing` (src/verify.cc lines 752-831): run the sweep and
emit the three warnings from the collected flags. -/
def check_text_timing (pfr : Int) (reels : List (List TimedSub × Int)) :
    List NoteCode :=
  let st := timingReels pfr reels 0 true (TimingState.mk none false false false)
  (if st.too_early then [NoteCode.INVALID_SUBTITLE_FIRST_TEXT_TIME] else []) ++
    (if st.too_short then [NoteCode.INVALID_SUBTITLE_DURATION] else []) ++
      (if st.too_close then [NoteCode.INVALID_SUBTITLE_SPACING] else [])

/-- The subtitles of a reel list flattened in sweep order, each with the
reel offset added to its times. -/
def offsetSubs : List (List TimedSub × Int) → Int → List (Int × Int)
  | [], _ => []
  | (subs, dur) :: rest, off =>
    subs.map (fun s => (off + s.tin, off + s.tout)) ++
      offsetSubs rest (off + dur)

/-- The last subtitle end seen after sweeping a flattened list, starting
from a previous value. -/
def lastOutUpd (lo : Option Int) : List (Int × Int) → Option Int
  | [] => lo
  | (_, o) :: rest => lastOutUpd (some o) rest

/-- Whether some subtitle of a flattened list starts 0 or 1 editable units
after its predecessor's end (the predecessor of the first being `lo`). -/
def gapsBad (lo : Option Int) : List (Int × Int) → Bool
  | [] => false
  | (i, o) :: rest =>
    (match lo with
     | some l => decide (0 ≤ i - l ∧ i - l < 2)
     | none => false) || gapsBad (some o) rest

/-- Whether the head reel (the only one swept with `first_reel` true) has a
subtitle starting before 4 seconds. -/
def earlyAny (pfr : Int) : List (List TimedSub × Int) → Bool
  | [] => false
  | (subs, _) :: _ => subs.any fun s => decide (s.tin < 4 * pfr)

/-! ## check_text_lines_and_characters (src/verify.cc lines 842-930) -/

/-- A `SubtitleString` as the sweep sees it: its in/out times (only their
ordering is used), its vertical position key (the source computes this from
`v_align`/`v_position` with `lrintf`; the mapping plays no role in the
claims, so the integer key is taken as given) and its text length. -/
structure SubtitleLine where
  tin : Int
  tout : Int
  position : Int
  chars : Int

/-- An event of the sweep: a subtitle's start or its end; the end event
carries the start's position and character count (the source stores a
pointer to the start event). -/
inductive SweepEvent where
  | enter (time position characters : Int)
  | leave (time position characters : Int)

/-- Time of an event. -/
def SweepEvent.time : SweepEvent → Int
  | .enter t _ _ => t
  | .leave t _ _ => t

/-- The event list built from the subtitles, in asset order: an in event
followed by the paired out event per subtitle (src/verify.cc lines
886-893). -/
def eventsOf (subs : List SubtitleLine) : List SweepEvent :=
  subs.flatMap fun s =>
    [.enter s.tin s.position s.chars, .leave s.tout s.position s.chars]

/-- Insert an event after every event whose time is not greater, so that
the overall sort is stable (std::sort only promises an ascending-by-time
order; equal-time order is unspecified, and the model fixes the stable
one). -/
def insertByTime : List SweepEvent → SweepEvent → List SweepEvent
  | [], e => [e]
  | f :: rest, e =>
    if e.time < f.time then e :: f :: rest else f :: insertByTime rest e

/-- Sort the events by ascending time (src/verify.cc lines 895-897). -/
def sortEvents (es : List SweepEvent) : List SweepEvent :=
  es.foldl insertByTime []

/-- Lookup in the `map<int, int>` of vertical position to character count,
modelled as an association list with unique keys. -/
def mapFind (m : List (Int × Int)) (k : Int) : Option Int :=
  (m.find? fun p => p.1 = k).map Prod.snd

/-- `current.erase(k)`. -/
def mapErase (m : List (Int × Int)) (k : Int) : List (Int × Int) :=
  m.filter fun p => p.1 ≠ k

/-- `current[k] = v`: update in place, or append a new binding. -/
def mapSet : List (Int × Int) → Int → Int → List (Int × Int)
  | [], k, v => [(k, v)]
  | p :: rest, k, v =>
    if p.1 = k then (k, v) :: rest else p :: mapSet rest k v

/-- The flag record filled by the sweep (`LinesCharactersResult`,
src/verify.cc lines 834-839). -/
structure LinesCharactersResult where
  warning_length_exceeded : Bool
  error_length_exceeded : Bool
  line_count_exceeded : Bool

/-- The checks run against the current state before an event is processed
(src/verify.cc lines 901-911): more than 3 concurrent positions, and per
position a character count reaching the warning or error length. -/
def lcCheck (warning_length error_length : Int) (current : List (Int × Int))
    (r : LinesCharactersResult) : LinesCharactersResult :=
  { line_count_exceeded :=
      r.line_count_exceeded || decide (current.length > 3)
  , warning_length_exceeded :=
      r.warning_length_exceeded ||
        current.any fun p => decide (p.2 ≥ warning_length)
  , error_length_exceeded :=
      r.error_length_exceeded ||
        current.any fun p => decide (p.2 ≥ error_length) }

/-- Processing of one event (src/verify.cc lines 913-928): an end event
removes its subtitle's characters from its position (erasing the entry
when the count matches exactly; the source asserts the key is present),
a start event adds them. -/
def lcProcess (current : List (Int × Int)) (e : SweepEvent) :
    List (Int × Int) :=
  match e with
  | .leave _ pos chars =>
    match mapFind current pos with
    | some v => if v = chars then mapErase current pos
                else mapSet current pos (v - chars)
    | none => current
  | .enter _ pos chars =>
    match mapFind current pos with
    | none => mapSet current pos chars
    | some v => mapSet current pos (v + chars)

/-- The event loop (src/verify.cc lines 899-929): check the current state,
then apply the event. -/
def lcSweep (warning_length error_length : Int) :
    List SweepEvent → List (Int × Int) → LinesCharactersResult →
      LinesCharactersResult
  | [], _, r => r
  | e :: rest, current, r =>
    lcSweep warning_length error_length rest (lcProcess current e)
      (lcCheck warning_length error_length current r)

/-- `check_text_lines_and_characters` (src/verify.cc lines 842-930):
build the events, sort them, and sweep, accumulating into the caller's
result record. -/
def check_text_lines_and_characters (warning_length error_length : Int)
    (subs : List SubtitleLine) (r : LinesCharactersResult) :
    LinesCharactersResult :=
  lcSweep warning_length error_length (sortEvents (eventsOf subs)) [] r

/-- The sequence of states the sweep checks: the current map before each
event (the post-final state is never checked by the source loop). -/
def sweepStates : List SweepEvent → List (Int × Int) →
    List (List (Int × Int))
  | [], _ => []
  | e :: rest, current => current :: sweepStates rest (lcProcess current e)

/-- Whether at some checked instant of the sweep over an asset's subtitles
some vertical position holds at least `n` characters. -/
def anyInstantAtLeast (n : Int) (subs : List SubtitleLine) : Bool :=
  (sweepStates (sortEvents (eventsOf subs)) []).any fun st =>
    st.any fun p => decide (p.2 ≥ n)

/-- The main-subtitle line checks of `dcp::verify` (src/verify.cc lines
1293-1307): one result record accumulated over every reel's main subtitle
asset with thresholds 52/79, then the error note, or else the warning
note, plus the line-count note. -/
def subtitle_line_notes (reelsSubs : List (List SubtitleLine)) :
    List NoteCode :=
  let result := reelsSubs.foldl
    (fun r subs => check_text_lines_and_characters 52 79 subs r)
    (LinesCharactersResult.mk false false false)
  (if result.line_count_exceeded then [NoteCode.INVALID_SUBTITLE_LINE_COUNT]
    else []) ++
    (if result.error_length_exceeded then
      [NoteCode.INVALID_SUBTITLE_LINE_LENGTH]
    else if result.warning_length_exceeded then
      [NoteCode.NEARLY_INVALID_SUBTITLE_LINE_LENGTH]
    else [])

/-! ## verify_picture_asset_type (src/verify.cc lines 430-519) -/

/-- `dcp::Fraction`: a rational edit rate. -/
structure Fraction where
  numerator : Int
  denominator : Int
deriving DecidableEq, Repr

/-- C's `rint` under the default rounding mode (round to nearest, ties to
even), applied to the exact rational `num/den` with `den > 0`.  The
source computes on doubles; with the magnitudes involved here (≤ 2.5·10^8)
the correctly rounded double agrees with the exact rational for `rint`
purposes. -/
def rintQ (num den : Int) : Int :=
  let f := Int.fdiv num den
  let r := num - f * den
  if 2 * r < den then f
  else if 2 * r > den then f + 1
  else if f % 2 = 0 then f else f + 1

/-- A mono picture asset as `verify_picture_asset_type` reads it: its edit
rate and the JPEG2000 payload size of each frame. -/
structure PictureAsset where
  edit_rate : Fraction
  frame_sizes : List Int

/-- `VerifyPictureAssetResult` (src/verify.cc lines 409-414). -/
inductive VerifyPictureAssetResult where
  | GOOD
  | FRAME_NEARLY_TOO_LARGE
  | BAD
deriving DecidableEq, Repr

/-- The values of the two `static const int` locals of
`verify_picture_asset_type` (src/verify.cc lines 448-449) when they are
initialized: `rint(250·10^6 / (8·fps))` and `rint(230·10^6 / (8·fps))`
bytes, where `fps = n/d` is `edit_rate().as_float()`, so the arguments
are the exact rationals `250·10^6·d / (8·n)` and `230·10^6·d / (8·n)`. -/
def pictureThresholds (edit_rate : Fraction) : Int × Int :=
  ( rintQ (250 * 1000000 * edit_rate.denominator) (8 * edit_rate.numerator)
  , rintQ (230 * 1000000 * edit_rate.denominator) (8 * edit_rate.numerator) )

/-- One call of `verify_picture_asset_type` for a mono asset
(src/verify.cc lines 430-457).  `statics` carries the template
instantiation's `static const` thresholds: they are computed from the
asset's edit rate only on the first call of the process and reused
unchanged for every later asset.  Returns the updated statics and the
per-asset result from the largest frame. -/
def verify_picture_asset_type (statics : Option (Int × Int))
    (asset : PictureAsset) :
    Option (Int × Int) × VerifyPictureAssetResult :=
  let biggest_frame := asset.frame_sizes.foldl max 0
  let thresholds := statics.getD (pictureThresholds asset.edit_rate)
  ( some thresholds
  , if biggest_frame > thresholds.1 then .BAD
    else if biggest_frame > thresholds.2 then .FRAME_NEARLY_TOO_LARGE
    else .GOOD )

/-- The notes pushed by `verify_main_picture_asset` from the per-asset
result (src/verify.cc lines 505-519). -/
def pictureSizeNotes : VerifyPictureAssetResult → List NoteCode
  | .BAD => [NoteCode.INVALID_PICTURE_FRAME_SIZE_IN_BYTES]
  | .FRAME_NEARLY_TOO_LARGE =>
    [NoteCode.NEARLY_INVALID_PICTURE_FRAME_SIZE_IN_BYTES]
  | .GOOD => []

/-- The frame-size notes over a sequence of mono picture assets checked in
one process run, threading the `static const` state. -/
def verifyPictureAssetsRun :
    List PictureAsset → Option (Int × Int) → List NoteCode
  | [], _ => []
  | a :: rest, statics =>
    let next := verify_picture_asset_type statics a
    pictureSizeNotes next.2 ++ verifyPictureAssetsRun rest next.1

/-- The frame-size notes of a verification run starting with the statics
uninitialized. -/
def verify_picture_notes (assets : List PictureAsset) : List NoteCode :=
  verifyPictureAssetsRun assets none

/-- Per the claim's words (second definition, for comparison): each asset
judged against thresholds recomputed from its own edit rate. -/
def claimedPictureNotes (assets : List PictureAsset) : List NoteCode :=
  assets.flatMap fun a =>
    let thresholds := pictureThresholds a.edit_rate
    let biggest := a.frame_sizes.foldl max 0
    if biggest > thresholds.1 then
      [NoteCode.INVALID_PICTURE_FRAME_SIZE_IN_BYTES]
    else if biggest > thresholds.2 then
      [NoteCode.NEARLY_INVALID_PICTURE_FRAME_SIZE_IN_BYTES]
    else []

end LibDCP

namespace LibDCP

/-! ## Theorems for C8, C10, C9 -/

/-- C8: for every ReelAsset whose entry point (when present) is at most the
intrinsic duration, `actual_duration` equals the explicit duration when set,
and otherwise equals intrinsic duration minus the entry point (0 when the
entry point is absent). -/
theorem reel_asset_actual_duration (a : ReelAsset)
    (h : ∀ e, a.entry_point = some e → e ≤ a.intrinsic_duration) :
    a.actual_duration =
      (a.duration.getD (a.intrinsic_duration - a.entry_point.getD 0)) := by
  rcases a with ⟨i, d, e⟩
  cases d <;> simp [ReelAsset.actual_duration]

/-- Witness for `reel_asset_actual_duration` at a concrete asset with entry
point 3 and intrinsic duration 10. -/
theorem reel_asset_actual_duration_witness :
    (ReelAsset.mk 10 none (some 3)).actual_duration = 7 := by
  have h := reel_asset_actual_duration (ReelAsset.mk 10 none (some 3))
    (by intro e he; cases he; decide)
  simpa using h

/-- C10: `content_kind_from_string` is a left inverse of
`content_kind_to_string`, and it is case-insensitive: two strings with the
same ASCII lower-casing map to the same result. -/
theorem content_kind_roundtrip_and_case_insensitive :
    (∀ k : ContentKind,
        content_kind_from_string (content_kind_to_string k) = some k) ∧
      (∀ s t : String, lowerString s = lowerString t →
        content_kind_from_string s = content_kind_from_string t) := by
  constructor
  · intro k
    cases k <;> decide
  · intro s t h
    unfold content_kind_from_string
    rw [h]

/-- Witness for `content_kind_roundtrip_and_case_insensitive`: the mixed-case
string "Feature" maps like "FEATURE". -/
theorem content_kind_case_insensitive_witness :
    content_kind_from_string "Feature" = content_kind_from_string "FEATURE" :=
  content_kind_roundtrip_and_case_insensitive.2 "Feature" "FEATURE" (by decide)

/-- C9: when `DCP::read` (with a non-null notes sink) parses a CPL whose
standard differs from the ASSETMAP's, it appends a MismatchedStandard note,
still appends the CPL to the CPL list, and returns normally. -/
theorem read_cpl_mismatched_standard (dcpStandard : Standard) (cpl : ReadCpl)
    (notes : List NoteCode) (cpls : List ReadCpl)
    (h : cpl.standard ≠ dcpStandard) :
    readCplBranch dcpStandard cpl true notes cpls =
      .ok (notes ++ [NoteCode.MISMATCHED_STANDARD], cpls ++ [cpl]) := by
  simp [readCplBranch, h]

/-- Witness for `read_cpl_mismatched_standard`: an Interop CPL inside an
SMPTE package. -/
theorem read_cpl_mismatched_standard_witness :
    readCplBranch Standard.SMPTE (ReadCpl.mk Standard.INTEROP) true [] [] =
      .ok ([NoteCode.MISMATCHED_STANDARD], [ReadCpl.mk Standard.INTEROP]) :=
  read_cpl_mismatched_standard Standard.SMPTE (ReadCpl.mk Standard.INTEROP)
    [] [] (by decide)

/-! ## Theorems for C2 and C7 -/

/-- Helper for the C2 proof: the pair loop of `chain_valid` forces the
DN/verification conditions on every adjacent pair. -/
theorem chain_valid_from_chain' (verify : VerifyOracle)
    (store : List Certificate) (l : List Certificate)
    (h : chain_valid_from verify store l = true) :
    List.Chain' (fun i j =>
      j.issuer = i.subject ∧ j.subject ≠ i.subject ∧ verify j store = true) l := by
  induction l with
  | nil => exact List.chain'_nil
  | cons i rest ih =>
    cases rest with
    | nil => simp
    | cons j rest2 =>
      rw [chain_valid_from] at h
      by_cases hc : (verify j store ∧ j.issuer = i.subject ∧ j.subject ≠ i.subject)
      · rw [if_pos hc] at h
        exact List.chain'_cons.mpr ⟨⟨hc.2.1, hc.2.2, hc.1⟩, ih h⟩
      · rw [if_neg hc] at h
        exact absurd h (by simp)

/-- C2: on any list accepted by `chain_valid`, every adjacent pair
(parent, child) satisfies: the child's issuer DN equals the parent's
subject DN, the child's subject DN differs from the parent's subject DN,
and verification of the child against the store holding the whole chain
succeeds. -/
theorem chain_valid_adjacent_pairs (verify : VerifyOracle)
    (chain : List Certificate) (h : chain_valid verify chain = true) :
    List.Chain' (fun i j =>
      j.issuer = i.subject ∧ j.subject ≠ i.subject ∧ verify j chain = true)
      chain :=
  chain_valid_from_chain' verify chain chain h

/-- An always-succeeding verification oracle, for concrete evaluations. -/
def trivialVerify : VerifyOracle := fun _ _ => true

/-- A self-signed root certificate for concrete evaluations. -/
def certificateRootExample : Certificate := ⟨"Root", "Root"⟩

/-- A leaf certificate issued by `certificateRootExample`. -/
def certificateLeafExample : Certificate := ⟨"Leaf", "Root"⟩

/-- Witness for `chain_valid_adjacent_pairs` on a concrete two-element
chain. -/
theorem chain_valid_adjacent_pairs_witness :
    List.Chain' (fun i j =>
      j.issuer = i.subject ∧ j.subject ≠ i.subject ∧
        trivialVerify j [certificateRootExample, certificateLeafExample] = true)
      [certificateRootExample, certificateLeafExample] :=
  chain_valid_adjacent_pairs trivialVerify
    [certificateRootExample, certificateLeafExample] (by decide)

/-- C7: `root_to_leaf` returns a permutation of the stored certificates on
which `chain_valid` holds, and fails (`NotAChain`) exactly when no
permutation of the stored certificates satisfies `chain_valid`. -/
theorem root_to_leaf_finds_valid_permutation (verify : VerifyOracle)
    (certs : List Certificate) :
    (∀ l, root_to_leaf verify certs = some l →
        l.Perm certs ∧ chain_valid verify l = true) ∧
      (root_to_leaf verify certs = none ↔
        ∀ l, l.Perm certs → chain_valid verify l = false) := by
  constructor
  · intro l hl
    have hm := List.mem_of_find?_eq_some hl
    have hp := List.find?_some hl
    exact ⟨List.mem_permutations.1 hm, hp⟩
  · constructor
    · intro hn l hperm
      have := List.find?_eq_none.1 hn l (List.mem_permutations.2 hperm)
      simpa using this
    · intro hall
      apply List.find?_eq_none.2
      intro l hl
      simp [hall l (List.mem_permutations.1 hl)]

/-- Witness for `root_to_leaf_finds_valid_permutation` on a concrete
singleton chain. -/
theorem root_to_leaf_finds_valid_permutation_witness :
    ([certificateLeafExample]).Perm [certificateLeafExample] ∧
      chain_valid trivialVerify [certificateLeafExample] = true :=
  (root_to_leaf_finds_valid_permutation trivialVerify
      [certificateLeafExample]).1 [certificateLeafExample] (by rfl)

/-! ## Theorems for C1 -/

/-- Helper: `find?` skips a prefix in which nothing matches. -/
theorem find?_append_of_none {p : Xml → Bool} {l1 l2 : List Xml}
    (h : l1.find? p = none) : (l1 ++ l2).find? p = l2.find? p := by
  induction l1 with
  | nil => rfl
  | cons x xs ih =>
    rw [List.cons_append]
    cases hx : p x with
    | true => simp [List.find?_cons, hx] at h
    | false =>
      simp only [List.find?_cons, hx] at h ⊢
      exact ih h

/-- Helper: the Signature node appended by `sign` is the one found under
the signed node, provided the node had no Signature child already. -/
theorem sign_childNamed_signature (n : String) (a : List (String × String))
    (cs : List Xml) (standard : Standard) (leaf : CertificateIdentity)
    (chain : List CertificateIdentity)
    (h : (Xml.el n a cs).childNamed "Signature" = none) :
    (CertificateChain.sign (Xml.el n a cs) standard leaf chain).childNamed
        "Signature" =
      some (signatureElement standard chain) := by
  have h' : cs.find? (fun c => c.name = "Signature") = none := h
  show ((cs ++ _).find? (fun c => c.name = "Signature")) = _
  rw [find?_append_of_none h']
  rfl

/-- C1 counterexample: signing a concrete node under SMPTE emits a
DigestMethod whose Algorithm is the SHA-1 identifier, not a SHA-256 one,
contradicting the claim that the DigestMethod is SHA-256 for SMPTE. -/
theorem sign_smpte_digest_method_counterexample :
    signedDigestMethodAlgorithm
        (CertificateChain.sign (Xml.el "CompositionPlaylist" [] [])
          Standard.SMPTE (CertificateIdentity.mk "I" "5" "S" "C") []) =
        some "http://www.w3.org/2000/09/xmldsig#sha1" ∧
      signedDigestMethodAlgorithm
          (CertificateChain.sign (Xml.el "CompositionPlaylist" [] [])
            Standard.SMPTE (CertificateIdentity.mk "I" "5" "S" "C") []) ≠
        some "http://www.w3.org/2001/04/xmlenc#sha256" := by
  constructor
  · rfl
  · decide

/-- C1 amended: for every call to `CertificateChain::sign(parent, standard)`
on an element with no prior Signature child, the emitted Signature carries a
DigestMethod of SHA-1 for both standards, and a SignatureMethod of rsa-sha1
for Interop and rsa-sha256 for SMPTE. -/
theorem sign_digest_and_signature_methods (n : String)
    (a : List (String × String)) (cs : List Xml) (standard : Standard)
    (leaf : CertificateIdentity) (chain : List CertificateIdentity)
    (h : (Xml.el n a cs).childNamed "Signature" = none) :
    signedDigestMethodAlgorithm
        (CertificateChain.sign (Xml.el n a cs) standard leaf chain) =
        some "http://www.w3.org/2000/09/xmldsig#sha1" ∧
      signedSignatureMethodAlgorithm
          (CertificateChain.sign (Xml.el n a cs) standard leaf chain) =
        some (if standard = Standard.INTEROP then
            "http://www.w3.org/2000/09/xmldsig#rsa-sha1"
          else
            "http://www.w3.org/2001/04/xmldsig-more#rsa-sha256") := by
  have hs := sign_childNamed_signature n a cs standard leaf chain h
  constructor
  · rw [signedDigestMethodAlgorithm, hs]
    rfl
  · rw [signedSignatureMethodAlgorithm, hs]
    cases standard <;> rfl

/-! ## Theorem for C6 -/

/-- C6: the `static const` thresholds freeze on the first asset's edit
rate.  With a first asset at 24 fps and a second at 48 fps whose frame
holds 700000 bytes — above the 48 fps 250 Mbit/s threshold of 651042
bytes — the run emits no note at all, while judging each asset by its own
edit rate (as the claim states) would emit the error note. -/
theorem picture_frame_size_static_divergence :
    verify_picture_notes
        [PictureAsset.mk (Fraction.mk 24 1) [100],
          PictureAsset.mk (Fraction.mk 48 1) [700000]] = [] ∧
      (700000 : Int) > (pictureThresholds (Fraction.mk 48 1)).1 ∧
      claimedPictureNotes
          [PictureAsset.mk (Fraction.mk 24 1) [100],
            PictureAsset.mk (Fraction.mk 48 1) [700000]] =
        [NoteCode.INVALID_PICTURE_FRAME_SIZE_IN_BYTES] := by
  refine ⟨?_, ?_, ?_⟩ <;> decide

/-! ## Theorems for C5 -/

/-- Helper: sweeping an appended flat list updates the last-out value in
two stages. -/
theorem lastOutUpd_append (lo : Option Int) (l1 l2 : List (Int × Int)) :
    lastOutUpd lo (l1 ++ l2) = lastOutUpd (lastOutUpd lo l1) l2 := by
  induction l1 generalizing lo with
  | nil => rfl
  | cons x xs ih =>
    cases x
    simp only [List.cons_append, lastOutUpd]
    exact ih _

/-- Helper: bad gaps in an appended flat list split into bad gaps of the
first part and bad gaps of the second, whose first gap is measured against
the first part's final subtitle end. -/
theorem gapsBad_append (lo : Option Int) (l1 l2 : List (Int × Int)) :
    gapsBad lo (l1 ++ l2) =
      (gapsBad lo l1 || gapsBad (lastOutUpd lo l1) l2) := by
  induction l1 generalizing lo with
  | nil => simp [gapsBad, lastOutUpd]
  | cons x xs ih =>
    cases x
    simp only [List.cons_append, gapsBad, lastOutUpd, List.append_eq, ih,
      Bool.or_assoc]

/-- Helper: closed form of sweeping one reel's subtitles. -/
theorem foldl_timingStep_spec (pfr off : Int) (first : Bool)
    (subs : List TimedSub) (st : TimingState) :
    subs.foldl (timingStep pfr off first) st =
      TimingState.mk
        (lastOutUpd st.last_out (subs.map fun s => (off + s.tin, off + s.tout)))
        (st.too_early || (first && subs.any fun s => decide (s.tin < 4 * pfr)))
        (st.too_short || (subs.any fun s => decide (s.tout - s.tin < 15)))
        (st.too_close ||
          gapsBad st.last_out
            (subs.map fun s => (off + s.tin, off + s.tout))) := by
  induction subs generalizing st with
  | nil => cases st; simp [lastOutUpd, gapsBad]
  | cons s rest ih =>
    rw [List.foldl_cons, ih]
    cases st with
    | mk lo e sh cl =>
      simp [timingStep, lastOutUpd, gapsBad, List.any_cons, Bool.or_assoc,
        Bool.and_or_distrib_left]

/-- Helper: closed form of the whole reel sweep. -/
theorem timingReels_spec (pfr : Int) (reels : List (List TimedSub × Int))
    (off : Int) (first : Bool) (st : TimingState) :
    timingReels pfr reels off first st =
      TimingState.mk
        (lastOutUpd st.last_out (offsetSubs reels off))
        (st.too_early || (first && earlyAny pfr reels))
        (st.too_short ||
          (reels.any fun r => r.1.any fun s => decide (s.tout - s.tin < 15)))
        (st.too_close || gapsBad st.last_out (offsetSubs reels off)) := by
  induction reels generalizing off first st with
  | nil => cases st; simp [timingReels, offsetSubs, lastOutUpd, gapsBad, earlyAny]
  | cons r rest ih =>
    cases r with
    | mk subs dur =>
      rw [timingReels, foldl_timingStep_spec, ih]
      cases st with
      | mk lo e sh cl =>
        simp [offsetSubs, earlyAny, lastOutUpd_append, gapsBad_append,
          List.any_cons, Bool.or_assoc]

/-- Whether an adjacent pair of flattened subtitles is separated by a gap
of 0 or 1 editable units. -/
def spacingBadPair (p : (Int × Int) × (Int × Int)) : Bool :=
  decide (0 ≤ p.2.1 - p.1.2 ∧ p.2.1 - p.1.2 < 2)

/-- Helper: bad gaps after a known previous end, in terms of adjacent
pairs. -/
theorem gapsBad_some_eq (lo : Int) (l : List (Int × Int)) :
    gapsBad (some lo) l =
      ((match l with
        | [] => false
        | (i, _) :: _ => decide (0 ≤ i - lo ∧ i - lo < 2)) ||
        (l.zip l.tail).any spacingBadPair) := by
  induction l generalizing lo with
  | nil => rfl
  | cons x rest ih =>
    cases x with
    | mk i o =>
      show (decide (0 ≤ i - lo ∧ i - lo < 2) || gapsBad (some o) rest) = _
      rw [ih o]
      cases rest with
      | nil => simp
      | cons y r2 =>
        cases y with
        | mk i2 o2 =>
          simp [List.zip, List.zipWith, List.any_cons, List.tail,
            spacingBadPair, Bool.or_assoc]

/-- Helper: bad gaps with no previous subtitle are exactly the bad adjacent
pairs. -/
theorem gapsBad_none_eq (l : List (Int × Int)) :
    gapsBad none l = (l.zip l.tail).any spacingBadPair := by
  cases l with
  | nil => rfl
  | cons x rest =>
    cases x with
    | mk i o =>
      show (false || gapsBad (some o) rest) = _
      rw [Bool.false_or, gapsBad_some_eq]
      cases rest with
      | nil => simp
      | cons y r2 =>
        cases y with
        | mk i2 o2 =>
          simp [List.zip, List.zipWith, List.any_cons, List.tail,
            spacingBadPair, Bool.or_assoc]

/-- Helper: which of the three timing warnings contains
InvalidSubtitleDuration. -/
theorem duration_mem_timing_notes (e sh cl : Bool) :
    (NoteCode.INVALID_SUBTITLE_DURATION ∈
      (if e then [NoteCode.INVALID_SUBTITLE_FIRST_TEXT_TIME] else []) ++
        (if sh then [NoteCode.INVALID_SUBTITLE_DURATION] else []) ++
          (if cl then [NoteCode.INVALID_SUBTITLE_SPACING] else [])) ↔
      sh = true := by
  cases e <;> cases sh <;> cases cl <;> simp

/-- Helper: which of the three timing warnings contains
InvalidSubtitleSpacing. -/
theorem spacing_mem_timing_notes (e sh cl : Bool) :
    (NoteCode.INVALID_SUBTITLE_SPACING ∈
      (if e then [NoteCode.INVALID_SUBTITLE_FIRST_TEXT_TIME] else []) ++
        (if sh then [NoteCode.INVALID_SUBTITLE_DURATION] else []) ++
          (if cl then [NoteCode.INVALID_SUBTITLE_SPACING] else [])) ↔
      cl = true := by
  cases e <;> cases sh <;> cases cl <;> simp

/-- C5: `check_text_timing` emits InvalidSubtitleDuration exactly when some
subtitle lasts fewer than 15 editable units (so 15 exactly gives no
warning and 14 does), and InvalidSubtitleSpacing exactly when some
adjacent pair of flattened subtitles is separated by a gap of 0 or 1
editable units — gaps of 2 or more and negative gaps give no warning. -/
theorem check_text_timing_duration_and_spacing (pfr : Int)
    (reels : List (List TimedSub × Int)) :
    (NoteCode.INVALID_SUBTITLE_DURATION ∈ check_text_timing pfr reels ↔
        ∃ r ∈ reels, ∃ s ∈ r.1, s.tout - s.tin < 15) ∧
      (NoteCode.INVALID_SUBTITLE_SPACING ∈ check_text_timing pfr reels ↔
        ∃ p ∈ (offsetSubs reels 0).zip (offsetSubs reels 0).tail,
          0 ≤ p.2.1 - p.1.2 ∧ p.2.1 - p.1.2 < 2) := by
  have hspec :=
    timingReels_spec pfr reels 0 true (TimingState.mk none false false false)
  constructor
  · rw [check_text_timing, hspec, duration_mem_timing_notes]
    simp [List.any_eq_true]
  · rw [check_text_timing, hspec, spacing_mem_timing_notes]
    simp [gapsBad_none_eq, List.any_eq_true, spacingBadPair]

/-! ## Theorems for C4 -/

/-- Whether at some checked instant of the sweep more than 3 vertical
positions are active. -/
def anyInstantCountExceeded (subs : List SubtitleLine) : Bool :=
  (sweepStates (sortEvents (eventsOf subs)) []).any fun st =>
    decide (st.length > 3)

/-- Helper: closed form of the sweep flags in terms of the checked
states. -/
theorem lcSweep_spec (wl el : Int) (events : List SweepEvent)
    (current : List (Int × Int)) (r : LinesCharactersResult) :
    lcSweep wl el events current r =
      LinesCharactersResult.mk
        (r.warning_length_exceeded ||
          (sweepStates events current).any fun st =>
            st.any fun p => decide (p.2 ≥ wl))
        (r.error_length_exceeded ||
          (sweepStates events current).any fun st =>
            st.any fun p => decide (p.2 ≥ el))
        (r.line_count_exceeded ||
          (sweepStates events current).any fun st =>
            decide (st.length > 3)) := by
  induction events generalizing current r with
  | nil => cases r; simp [lcSweep, sweepStates]
  | cons e rest ih =>
    simp only [lcSweep]
    rw [ih]
    cases r with
    | mk w er lc =>
      simp [lcCheck, sweepStates, List.any_cons, Bool.or_assoc]

/-- Helper: closed form of one asset's check. -/
theorem check_lines_spec (wl el : Int) (subs : List SubtitleLine)
    (r : LinesCharactersResult) :
    check_text_lines_and_characters wl el subs r =
      LinesCharactersResult.mk
        (r.warning_length_exceeded ||
          (sweepStates (sortEvents (eventsOf subs)) []).any fun st =>
            st.any fun p => decide (p.2 ≥ wl))
        (r.error_length_exceeded ||
          (sweepStates (sortEvents (eventsOf subs)) []).any fun st =>
            st.any fun p => decide (p.2 ≥ el))
        (r.line_count_exceeded || anyInstantCountExceeded subs) :=
  lcSweep_spec wl el (sortEvents (eventsOf subs)) [] r

/-- Helper: closed form of the accumulation over every reel's main
subtitle asset. -/
theorem fold_check_lines_spec (reelsSubs : List (List SubtitleLine))
    (r : LinesCharactersResult) :
    reelsSubs.foldl
        (fun r subs => check_text_lines_and_characters 52 79 subs r) r =
      LinesCharactersResult.mk
        (r.warning_length_exceeded || reelsSubs.any (anyInstantAtLeast 52))
        (r.error_length_exceeded || reelsSubs.any (anyInstantAtLeast 79))
        (r.line_count_exceeded || reelsSubs.any anyInstantCountExceeded) := by
  induction reelsSubs generalizing r with
  | nil => cases r; simp
  | cons subs rest ih =>
    rw [List.foldl_cons, check_lines_spec, ih]
    cases r with
    | mk w er lc =>
      simp [anyInstantAtLeast, List.any_cons, Bool.or_assoc]

/-- Helper: when the error note appears among the emitted line notes. -/
theorem error_mem_line_notes (w er lc : Bool) :
    (NoteCode.INVALID_SUBTITLE_LINE_LENGTH ∈
      (if lc then [NoteCode.INVALID_SUBTITLE_LINE_COUNT] else []) ++
        (if er then [NoteCode.INVALID_SUBTITLE_LINE_LENGTH]
          else if w then [NoteCode.NEARLY_INVALID_SUBTITLE_LINE_LENGTH]
          else [])) ↔
      er = true := by
  cases w <;> cases er <;> cases lc <;> simp

/-- Helper: when the warning note appears among the emitted line notes. -/
theorem nearly_mem_line_notes (w er lc : Bool) :
    (NoteCode.NEARLY_INVALID_SUBTITLE_LINE_LENGTH ∈
      (if lc then [NoteCode.INVALID_SUBTITLE_LINE_COUNT] else []) ++
        (if er then [NoteCode.INVALID_SUBTITLE_LINE_LENGTH]
          else if w then [NoteCode.NEARLY_INVALID_SUBTITLE_LINE_LENGTH]
          else [])) ↔
      (w = true ∧ er = false) := by
  cases w <;> cases er <;> cases lc <;> simp

/-- C4 counterexample: a single 52-character subtitle draws the warning
note although no instant of the sweep holds more than 52 characters, and a
single 79-character subtitle draws the error note although no instant
holds more than 79 characters — the code compares with ≥, the claim with
strict >. -/
theorem subtitle_line_length_counterexample :
    (subtitle_line_notes [[SubtitleLine.mk 0 10 0 52]] =
        [NoteCode.NEARLY_INVALID_SUBTITLE_LINE_LENGTH] ∧
      (sweepStates (sortEvents (eventsOf [SubtitleLine.mk 0 10 0 52])) []).all
          (fun st => st.all fun p => decide (p.2 ≤ 52)) = true) ∧
      (subtitle_line_notes [[SubtitleLine.mk 0 10 0 79]] =
        [NoteCode.INVALID_SUBTITLE_LINE_LENGTH] ∧
      (sweepStates (sortEvents (eventsOf [SubtitleLine.mk 0 10 0 79])) []).all
          (fun st => st.all fun p => decide (p.2 ≤ 79)) = true) :=
  ⟨⟨rfl, rfl⟩, ⟨rfl, rfl⟩⟩

/-- C4 amended: the error note is emitted exactly when at some checked
instant of the sweep some line at one vertical position holds at least 79
characters; the warning note exactly when some instant holds at least 52
characters and no instant holds at least 79; the two notes are never
emitted together. -/
theorem subtitle_line_length_notes (reelsSubs : List (List SubtitleLine)) :
    (NoteCode.INVALID_SUBTITLE_LINE_LENGTH ∈ subtitle_line_notes reelsSubs ↔
        ∃ subs ∈ reelsSubs, anyInstantAtLeast 79 subs = true) ∧
      (NoteCode.NEARLY_INVALID_SUBTITLE_LINE_LENGTH ∈
          subtitle_line_notes reelsSubs ↔
        ((∃ subs ∈ reelsSubs, anyInstantAtLeast 52 subs = true) ∧
          ¬∃ subs ∈ reelsSubs, anyInstantAtLeast 79 subs = true)) ∧
      ¬(NoteCode.INVALID_SUBTITLE_LINE_LENGTH ∈ subtitle_line_notes reelsSubs ∧
        NoteCode.NEARLY_INVALID_SUBTITLE_LINE_LENGTH ∈
          subtitle_line_notes reelsSubs) := by
  have hfold := fold_check_lines_spec reelsSubs
    (LinesCharactersResult.mk false false false)
  have h1 : (NoteCode.INVALID_SUBTITLE_LINE_LENGTH ∈
      subtitle_line_notes reelsSubs ↔
        ∃ subs ∈ reelsSubs, anyInstantAtLeast 79 subs = true) := by
    rw [subtitle_line_notes, hfold, error_mem_line_notes]
    simp [List.any_eq_true]
  have h2 : (NoteCode.NEARLY_INVALID_SUBTITLE_LINE_LENGTH ∈
      subtitle_line_notes reelsSubs ↔
        ((∃ subs ∈ reelsSubs, anyInstantAtLeast 52 subs = true) ∧
          ¬∃ subs ∈ reelsSubs, anyInstantAtLeast 79 subs = true)) := by
    rw [subtitle_line_notes, hfold, nearly_mem_line_notes]
    simp [List.any_eq_true]
  refine ⟨h1, h2, ?_⟩
  rintro ⟨he, hn⟩
  exact (h2.mp hn).2 (h1.mp he)

/-! ## Theorems for C3 -/

/-- C3 counterexample: (a) a SMPTE CPL with only the main sound
configuration set (reel present, with a main picture) gets no
CompositionMetadataAsset, though the claim requires one whenever at least
one of the four fields is set; (b) even with all four fields set, no
CompositionMetadataAsset is emitted when the first reel lacks a main
picture. -/
theorem cpl_write_xml_cma_counterexample :
    ((CplModel.mk (some "51") none none none
          [ReelModel.mk true []]).mainSoundConfiguration.isSome = true ∧
        firstReelHasCma
          (CPL.write_xml
            (CplModel.mk (some "51") none none none [ReelModel.mk true []])
            Standard.SMPTE) = false) ∧
      ((CplModel.mk (some "51") (some 48000) (some (1998, 1080))
          (some (1998, 1080)) [ReelModel.mk false []]).mainSoundSampleRate.isSome
            = true ∧
        firstReelHasCma
          (CPL.write_xml
            (CplModel.mk (some "51") (some 48000) (some (1998, 1080))
              (some (1998, 1080)) [ReelModel.mk false []])
            Standard.SMPTE) = false) :=
  ⟨⟨rfl, rfl⟩, ⟨rfl, rfl⟩⟩

/-- C3 amended: for every SMPTE CPL written by `CPL::write_xml` in which
the main sound configuration, main sound sample rate, main picture stored
area and main picture active area are all set and whose first reel has a
main picture, the emitted XML contains a CompositionMetadataAsset element
inside the first reel's AssetList. -/
theorem cpl_write_xml_cma (msc : String) (msr : Int) (sa aa : Int × Int)
    (ac : List Xml) (rest : List ReelModel) :
    firstReelHasCma
        (CPL.write_xml
          (CplModel.mk (some msc) (some msr) (some sa) (some aa)
            (ReelModel.mk true ac :: rest)) Standard.SMPTE) = true := by
  show (ac ++ [Xml.el "CompositionMetadataAsset" [] []]).any
      (fun c => c.name = "CompositionMetadataAsset") = true
  simp [List.any_append, Xml.name]

/-- Witness for `sign_digest_and_signature_methods` at a concrete Interop
signing call. -/
theorem sign_digest_and_signature_methods_witness :
    signedDigestMethodAlgorithm
        (CertificateChain.sign (Xml.el "CompositionPlaylist" [] [])
          Standard.INTEROP (CertificateIdentity.mk "I" "5" "S" "C") []) =
        some "http://www.w3.org/2000/09/xmldsig#sha1" ∧
      signedSignatureMethodAlgorithm
          (CertificateChain.sign (Xml.el "CompositionPlaylist" [] [])
            Standard.INTEROP (CertificateIdentity.mk "I" "5" "S" "C") []) =
        some (if Standard.INTEROP = Standard.INTEROP then
            "http://www.w3.org/2000/09/xmldsig#rsa-sha1"
          else
            "http://www.w3.org/2001/04/xmldsig-more#rsa-sha256") :=
  sign_digest_and_signature_methods "CompositionPlaylist" [] []
    Standard.INTEROP (CertificateIdentity.mk "I" "5" "S" "C") [] (by rfl)

end LibDCP
